import Mathlib

/-!
Shallow embedding of the TF.js layers benchmark harness
(`integration_tests/benchmarks`): the chronological model ordering, the
batch-size validation, the per-(model, function) timed execution with its
tensor allocation/disposal discipline, and the final persistence of the
benchmark run records to the Firestore datastore.

JavaScript objects (`suiteLog.data`, the per-model task-group logs) are
embedded as insertion-ordered association lists; JS numbers used as times
and batch sizes are embedded as rationals; the external Firestore and
TensorFlow.js calls are embedded as an abstract environment (`PipelineEnv`)
plus an event trace recording each external interaction.
-/

namespace Benchmarks

/--
One benchmark run record (`ModelBenchmarkRun` of `../types`, modelled from
its usage in the benchmark code and the spec data model: batch size,
iteration counts, average time, optional per-iteration timings, ending
timestamp, and the cross-referencing identifiers).  Identifier fields are
`Option`s: `none` embeds a JS field that is absent/undefined.
-/
structure ModelBenchmarkRun where
  modelName : String
  functionName : String
  batchSize : ℚ
  numWarmUpIterations : ℕ
  numBenchmarkedIterations : ℕ
  averageTimeMs : ℚ
  timesMs : Option (List ℚ)
  endingTimestampMs : ℤ
  taskType : Option String
  taskId : Option String
  environmentId : Option String
  versionSetId : Option String
  loss : Option String
  optimizer : Option String
  deriving Repr, DecidableEq

/-- `MultiFunctionModelTaskLog`: JS object mapping a function name to a
benchmark run, embedded as an insertion-ordered association list. -/
abbrev MultiFunctionModelTaskLog := List (String × ModelBenchmarkRun)

/-- `SuiteLog`: the reference benchmark document.  The Python environment
info is opaque to the claims, kept as an abstract string. -/
structure SuiteLog where
  data : List (String × MultiFunctionModelTaskLog)
  environmentInfo : String
  deriving Repr, DecidableEq

/-- First-match association-list lookup, embedding JS property access
`suiteLog.data[modelName]` (JS object keys are unique). -/
def lookupModel : List (String × MultiFunctionModelTaskLog) → String →
    Option MultiFunctionModelTaskLog
  | [], _ => none
  | (k, v) :: rest, key => if k = key then some v else lookupModel rest key

/-- The intermediate `modelNamesAndTimestamps` array of
`getChronologicalModelNames`: models with an empty task-group log are
skipped (`continue`); otherwise the model is paired with the ending
timestamp of its first recorded function
(`new Date(taskGroupLog[functionNames[0]].endingTimestampMs).getTime()`,
the identity on an epoch-milliseconds number). -/
def modelNamesAndTimestamps (suiteLog : SuiteLog) : List (String × ℤ) :=
  suiteLog.data.filterMap fun p =>
    match p.2 with
    | [] => none
    | (_, run) :: _ => some (p.1, run.endingTimestampMs)

/-- `getChronologicalModelNames`: sort the `(modelName, timestamp)` pairs by
ascending timestamp (`.sort((x, y) => x.timestamp - y.timestamp)`, a stable
sort per the ECMAScript specification, embedded as a stable insertion sort)
and return the model names. -/
def getChronologicalModelNames (suiteLog : SuiteLog) : List String :=
  (List.insertionSort (fun x y => x.2 ≤ y.2)
    (modelNamesAndTimestamps suiteLog)).map Prod.fst

/-- The ending timestamp of a model's first recorded function in the suite
log, when the model exists and has at least one recorded function. -/
def firstFunctionEndingTs (suiteLog : SuiteLog) (modelName : String) :
    Option ℤ :=
  (lookupModel suiteLog.data modelName).bind fun g =>
    g.head?.map fun p => p.2.endingTimestampMs

end Benchmarks

namespace Benchmarks

/-- A batch size passes `checkBatchSize` exactly when
`Number.isInteger(batchSize) && batchSize > 0`. -/
def isValidBatchSize (batchSize : ℚ) : Prop :=
  batchSize.den = 1 ∧ 0 < batchSize

instance (batchSize : ℚ) : Decidable (isValidBatchSize batchSize) := by
  unfold isValidBatchSize; infer_instance

/-- The error kinds the harness can raise: the missing-task guard in the
model loop, the batch-size validation, and a model `predict()`/`fit()` call
throwing (the external framework call failing). -/
inductive BenchError where
  | missingTask (modelName : String)
  | invalidBatchSize (batchSize : ℚ)
  | modelCallError (modelName functionName : String) (n : ℕ)
  deriving Repr, DecidableEq

/-- Externally observable actions of the pipeline, in order: datastore
writes, fetches, model loads, tensor allocation and disposal, the model
calls, warnings, and the final batched run-record insert. -/
inductive Event where
  | envInfoWrite (which : String)
  | versionSetWrite
  | fetchSuiteLog
  | loadModel (modelName : String)
  | taskIdRequest (taskType modelName functionName : String)
  | allocInputsOutputs (modelName functionName : String) (batchSize : ℚ)
  | warmUpPredict (modelName : String) (n : ℕ)
  | timedPredict (modelName : String) (n : ℕ)
  | compile (modelName : String) (loss optimizer : Option String)
  | warmUpFit (modelName : String) (epochs : ℕ)
  | timedFit (modelName : String) (epochs : ℕ)
  | warn (modelName functionName : String)
  | disposeInputsOutputs (modelName functionName : String)
  | batchInsertRuns (runs : List ModelBenchmarkRun)
  deriving Repr, DecidableEq

/-- Is this event a tensor allocation for a (model, function) pair
(`getRandomInputsAndOutputs`)? -/
def Event.isAlloc : Event → Bool
  | .allocInputsOutputs _ _ _ => true
  | _ => false

/-- Is this event the end-of-pair tensor release (`tf.dispose({xs, ys})`)? -/
def Event.isDispose : Event → Bool
  | .disposeInputsOutputs _ _ => true
  | _ => false

/-- Is this event the batched datastore insert
(`addBenchmarkRunsToFirestore`)? -/
def Event.isBatchInsert : Event → Bool
  | .batchInsertRuns _ => true
  | _ => false

/-- Is this event any datastore interaction (environment-info write,
version-set write, task-id request, or batched run insert)? -/
def Event.isDatastore : Event → Bool
  | .envInfoWrite _ => true
  | .versionSetWrite => true
  | .taskIdRequest _ _ _ => true
  | .batchInsertRuns _ => true
  | _ => false

/-- The abstract external world: identifiers returned by the datastore,
wall-clock durations of the framework calls, and which framework calls
throw.  The claims hold for every such environment. -/
structure PipelineEnv where
  tfjsEnvironmentId : String
  versionSetId : String
  pyEnvironmentId : String
  taskIdFor : String → String → String → String
  predictDur : String → ℕ → ℚ
  fitTime : String → ℚ
  wallClock : String → String → ℤ
  warmUpPredictFails : String → ℕ → Bool
  timedPredictFails : String → ℕ → Bool
  warmUpFitFails : String → Bool
  timedFitFails : String → Bool

/-- `math.mean`: the arithmetic mean of a list of numbers. -/
def mathMean (l : List ℚ) : ℚ := l.sum / l.length

/-- `OPTIMIZER_MAP`: Python optimizer name to tfjs optimizer name. -/
def optimizerMap (pyName : String) : Option String :=
  if pyName = "AdamOptimizer" then some "adam"
  else if pyName = "RMSPropOptimizer" then some "rmsprop"
  else if pyName = "GradientDescentOptimizer" then some "sgd"
  else none

/-- `LOSS_MAP`: Python loss name to tfjs loss name. -/
def lossMap (pyName : String) : Option String :=
  if pyName = "mean_squared_error" then some "meanSquaredError"
  else if pyName = "categorical_crossentropy" then
    some "categoricalCrossentropy"
  else none

/-- The warm-up `predict()` loop
(`for n in 0..numWarmUpIterations: await syncDataAndDispose(model.predict(xs))`):
each iteration is an untimed call that may throw. -/
def warmUpPredictLoop (env : PipelineEnv) (modelName : String) (start : ℕ) :
    (count : ℕ) → List Event × Except BenchError Unit
  | 0 => ([], .ok ())
  | c + 1 =>
    if env.warmUpPredictFails modelName start then
      ([.warmUpPredict modelName start],
        .error (.modelCallError modelName "predict" start))
    else
      let r := warmUpPredictLoop env modelName (start + 1) c
      (.warmUpPredict modelName start :: r.1, r.2)

/-- The benchmarked `predict()` loop: each iteration is timed with
`tf.util.now()` and its duration pushed onto `ts`; a call may throw. -/
def timedPredictLoop (env : PipelineEnv) (modelName : String) (start : ℕ) :
    (count : ℕ) → List Event × Except BenchError (List ℚ)
  | 0 => ([], .ok [])
  | c + 1 =>
    if env.timedPredictFails modelName start then
      ([.timedPredict modelName start],
        .error (.modelCallError modelName "predict" start))
    else
      match timedPredictLoop env modelName (start + 1) c with
      | (tr, .ok ts) =>
        (.timedPredict modelName start :: tr,
          .ok (env.predictDur modelName start :: ts))
      | (tr, .error e) => (.timedPredict modelName start :: tr, .error e)

/-- The `pyRun` record after the post-branch assignments
`pyRun.taskId = taskId; pyRun.environmentId = pyEnvironmentId`. -/
def updatedPyRun (env : PipelineEnv) (modelName functionName : String)
    (pyRun : ModelBenchmarkRun) : ModelBenchmarkRun :=
  { pyRun with
    taskId := some (env.taskIdFor "model" modelName functionName)
    environmentId := some env.pyEnvironmentId }

/-- The `tfjsRun` record the `predict` branch builds from the timed
durations `ts`, with `averageTimeMs: math.mean(ts)`. -/
def tfjsPredictRun (env : PipelineEnv) (modelName : String)
    (pyRun : ModelBenchmarkRun) (ts : List ℚ) : ModelBenchmarkRun :=
  { taskId := some (env.taskIdFor "model" modelName "predict")
    taskType := some "model"
    modelName := modelName
    functionName := "predict"
    batchSize := pyRun.batchSize
    versionSetId := some env.versionSetId
    environmentId := some env.tfjsEnvironmentId
    numWarmUpIterations := pyRun.numWarmUpIterations
    numBenchmarkedIterations := pyRun.numBenchmarkedIterations
    timesMs := some ts
    averageTimeMs := mathMean ts
    endingTimestampMs := env.wallClock modelName "predict"
    loss := none
    optimizer := none }

/-- The `tfjsRun` record the `fit` branch builds from the single timed
call's elapsed time `t`, with
`averageTimeMs: t / pyRun.numBenchmarkedIterations`. -/
def tfjsFitRun (env : PipelineEnv) (modelName : String)
    (pyRun : ModelBenchmarkRun) (t : ℚ) : ModelBenchmarkRun :=
  { taskId := some (env.taskIdFor "model" modelName "fit")
    taskType := some "model"
    modelName := modelName
    functionName := "fit"
    batchSize := pyRun.batchSize
    versionSetId := some env.versionSetId
    environmentId := some env.tfjsEnvironmentId
    numWarmUpIterations := pyRun.numWarmUpIterations
    numBenchmarkedIterations := pyRun.numBenchmarkedIterations
    timesMs := none
    averageTimeMs := t / (pyRun.numBenchmarkedIterations : ℚ)
    endingTimestampMs := env.wallClock modelName "fit"
    loss := none
    optimizer := none }

/--
One iteration of the inner function loop of `it('Benchmark models')`:
request the task id, validate the batch size, allocate the random
input/output tensors, dispatch on the function name (`predict` / `fit` /
warn-and-skip), dispose the pair's tensors, and perform the `pyRun`
assignments.  Returns the event trace together with either the error that
aborted the run, or the pair `(tfjsRun?, updated pyRun)` pushed onto
`tfjsRuns` and `pyRuns` (`tfjsRun?` is `none` when `tfjsRun` was left
undefined by an unrecognized function name).
-/
def processPair (env : PipelineEnv) (modelName functionName : String)
    (pyRun : ModelBenchmarkRun) :
    List Event × Except BenchError (Option ModelBenchmarkRun × ModelBenchmarkRun) :=
  let tr0 : List Event := [.taskIdRequest "model" modelName functionName]
  if ¬ isValidBatchSize pyRun.batchSize then
    (tr0, .error (.invalidBatchSize pyRun.batchSize))
  else
    let trA := tr0 ++ [.allocInputsOutputs modelName functionName pyRun.batchSize]
    if functionName = "predict" then
      match warmUpPredictLoop env modelName 0 pyRun.numWarmUpIterations with
      | (trW, .error e) => (trA ++ trW, .error e)
      | (trW, .ok ()) =>
        match timedPredictLoop env modelName 0 pyRun.numBenchmarkedIterations with
        | (trT, .error e) => (trA ++ trW ++ trT, .error e)
        | (trT, .ok ts) =>
          (trA ++ trW ++ trT ++ [.disposeInputsOutputs modelName functionName],
            .ok (some (tfjsPredictRun env modelName pyRun ts),
              updatedPyRun env modelName functionName pyRun))
    else if functionName = "fit" then
      let trC := trA ++ [.compile modelName
        ((pyRun.loss.map lossMap).getD none)
        ((pyRun.optimizer.map optimizerMap).getD none)]
      if env.warmUpFitFails modelName then
        (trC ++ [.warmUpFit modelName pyRun.numWarmUpIterations],
          .error (.modelCallError modelName "fit" 0))
      else if env.timedFitFails modelName then
        (trC ++ [.warmUpFit modelName pyRun.numWarmUpIterations,
            .timedFit modelName pyRun.numBenchmarkedIterations],
          .error (.modelCallError modelName "fit" 1))
      else
        (trC ++ [.warmUpFit modelName pyRun.numWarmUpIterations,
            .timedFit modelName pyRun.numBenchmarkedIterations,
            .disposeInputsOutputs modelName functionName],
          .ok (some (tfjsFitRun env modelName pyRun (env.fitTime modelName)),
            updatedPyRun env modelName functionName pyRun))
    else
      (trA ++ [.warn modelName functionName,
          .disposeInputsOutputs modelName functionName],
        .ok (none, updatedPyRun env modelName functionName pyRun))

/-- The inner function loop over one model's task-group log, accumulating
`tfjsRuns` and `pyRuns` in push order; the first thrown error aborts. -/
def processPairs (env : PipelineEnv) (modelName : String) :
    (pairs : MultiFunctionModelTaskLog) →
    List Event ×
      Except BenchError (List (Option ModelBenchmarkRun) × List ModelBenchmarkRun)
  | [] => ([], .ok ([], []))
  | (functionName, pyRun) :: rest =>
    match processPair env modelName functionName pyRun with
    | (tr, .error e) => (tr, .error e)
    | (tr, .ok (tfjsRun, pyUpd)) =>
      match processPairs env modelName rest with
      | (tr2, .error e) => (tr ++ tr2, .error e)
      | (tr2, .ok (tfjsRuns, pyRuns)) =>
        (tr ++ tr2, .ok (tfjsRun :: tfjsRuns, pyUpd :: pyRuns))

/-- The outer model loop of `it('Benchmark models')`: for each sorted model
name, load the model, apply the zero-function guard
(`throw new Error('No task is found for model ...')`), and run the function
loop. -/
def processModels (env : PipelineEnv) (suiteLog : SuiteLog) :
    (names : List String) →
    List Event ×
      Except BenchError (List (Option ModelBenchmarkRun) × List ModelBenchmarkRun)
  | [] => ([], .ok ([], []))
  | modelName :: rest =>
    let taskGroupLog := (lookupModel suiteLog.data modelName).getD []
    let trL : List Event := [.loadModel modelName]
    if taskGroupLog.length = 0 then
      (trL, .error (.missingTask modelName))
    else
      match processPairs env modelName taskGroupLog with
      | (tr, .error e) => (trL ++ tr, .error e)
      | (tr, .ok (tfjsRuns, pyRuns)) =>
        match processModels env suiteLog rest with
        | (tr2, .error e) => (trL ++ tr ++ tr2, .error e)
        | (tr2, .ok (tfjsRuns2, pyRuns2)) =>
          (trL ++ tr ++ tr2, .ok (tfjsRuns ++ tfjsRuns2, pyRuns ++ pyRuns2))

-- Propositional equality on `Except` results is decidable whenever it is
-- on the error and value types (used to evaluate the pipeline on concrete
-- suite logs).
deriving instance DecidableEq for Except

/--
The whole `it('Benchmark models')` body: write the tfjs environment info
and version set to the datastore, fetch the suite log, write the Python
environment info, order the models chronologically, run the model loop,
and finally batch-insert the collected `pyRuns`
(`addBenchmarkRunsToFirestore(pyRuns)` — the `tfjsRuns` write is commented
out in the code).
-/
def benchmarkModels (env : PipelineEnv) (suiteLog : SuiteLog) :
    List Event ×
      Except BenchError (List (Option ModelBenchmarkRun) × List ModelBenchmarkRun) :=
  let tr0 : List Event := [.envInfoWrite "tfjs", .versionSetWrite,
    .fetchSuiteLog, .envInfoWrite "py"]
  match processModels env suiteLog (getChronologicalModelNames suiteLog) with
  | (tr, .error e) => (tr0 ++ tr, .error e)
  | (tr, .ok (tfjsRuns, pyRuns)) =>
    (tr0 ++ tr ++ [.batchInsertRuns pyRuns], .ok (tfjsRuns, pyRuns))

/-- Is this event an (untimed) warm-up `fit()` call? -/
def Event.isWarmUpFit : Event → Bool
  | .warmUpFit _ _ => true
  | _ => false

/-- Is this event the timed `fit()` call? -/
def Event.isTimedFit : Event → Bool
  | .timedFit _ _ => true
  | _ => false

/-- Is this event an (untimed) warm-up `predict()` call? -/
def Event.isWarmUpPredict : Event → Bool
  | .warmUpPredict _ _ => true
  | _ => false

/-- Is this event a timed `predict()` call? -/
def Event.isTimedPredict : Event → Bool
  | .timedPredict _ _ => true
  | _ => false

/-- The per-iteration durations recorded by a fully successful benchmarked
`predict()` loop. -/
def predictTs (env : PipelineEnv) (modelName : String) (count : ℕ) :
    List ℚ :=
  (List.range count).map (env.predictDur modelName)

/-! Concrete fixtures used to evaluate the pipeline on explicit inputs:
an environment in which every framework call succeeds, reference runs for
the `predict` and `fit` tasks, and small suite logs. -/

/-- A concrete pipeline environment in which every framework call
succeeds; the `n`-th benchmarked `predict()` call takes `n + 1` ms and the
timed `fit()` call takes 10 ms. -/
def env0 : PipelineEnv :=
  { tfjsEnvironmentId := "tfjsEnv"
    versionSetId := "vs"
    pyEnvironmentId := "pyEnv"
    taskIdFor := fun t m f => t ++ "/" ++ m ++ "/" ++ f
    predictDur := fun _ n => (n : ℚ) + 1
    fitTime := fun _ => 10
    wallClock := fun _ _ => 99
    warmUpPredictFails := fun _ _ => false
    timedPredictFails := fun _ _ => false
    warmUpFitFails := fun _ => false
    timedFitFails := fun _ => false }

/-- A concrete reference `predict` run for the model `mnist`
(the end-to-end scenario of the spec: batch size 32, 2 warm-up iterations,
5 benchmarked iterations, reference average 10.2 ms). -/
def pyRun0 : ModelBenchmarkRun :=
  { modelName := "mnist"
    functionName := "predict"
    batchSize := 32
    numWarmUpIterations := 2
    numBenchmarkedIterations := 5
    averageTimeMs := 102 / 10
    timesMs := none
    endingTimestampMs := 1000
    taskType := none
    taskId := none
    environmentId := none
    versionSetId := none
    loss := none
    optimizer := none }

/-- A concrete reference `fit` run. -/
def pyRunFit : ModelBenchmarkRun :=
  { pyRun0 with
    functionName := "fit"
    loss := some "mean_squared_error"
    optimizer := some "AdamOptimizer" }

/-- A concrete reference run whose batch size is negative. -/
def pyRunBadBatch : ModelBenchmarkRun := { pyRun0 with batchSize := -3 }

/-- A suite log with the single model `mnist` having only a `predict`
entry. -/
def suite0 : SuiteLog :=
  { data := [("mnist", [("predict", pyRun0)])], environmentInfo := "py" }

/-- A suite log containing a model entry with zero recorded functions. -/
def suiteNoTask : SuiteLog :=
  { data := [("m", [])], environmentInfo := "py" }

/-- A suite log with two timed models listed against chronological order
(`a` ends at 1000, `b` at 500) and one model with no recorded functions. -/
def suiteThree : SuiteLog :=
  { data := [("a", [("predict", pyRun0)]),
             ("b", [("predict", { pyRun0 with endingTimestampMs := 500 })]),
             ("c", [])]
    environmentInfo := "py" }

/-- An environment in which the fourth benchmarked `predict()` call
throws. -/
def envPredictFails : PipelineEnv :=
  { env0 with timedPredictFails := fun _ n => n == 3 }

/-- The tfjs run record the pipeline builds for `suite0` under `env0`. -/
def tfjsRun0 : ModelBenchmarkRun :=
  tfjsPredictRun env0 "mnist" pyRun0 (predictTs env0 "mnist" 5)

/-- The reference run record for `suite0` as persisted under `env0`. -/
def pyRun0Persisted : ModelBenchmarkRun :=
  updatedPyRun env0 "mnist" "predict" pyRun0

end Benchmarks

namespace Benchmarks

/-! Association-list and ordering lemmas for the chronological model
ordering. -/

theorem lookupModel_eq_some {data : List (String × MultiFunctionModelTaskLog)}
    (hnd : (data.map Prod.fst).Nodup) {k : String}
    {v : MultiFunctionModelTaskLog} (hmem : (k, v) ∈ data) :
    lookupModel data k = some v := by
  induction data with
  | nil => cases hmem
  | cons p rest ih =>
    simp only [List.map_cons, List.nodup_cons] at hnd
    rcases List.mem_cons.mp hmem with h | h
    · rw [← h]; simp [lookupModel]
    · rcases p with ⟨k', v'⟩
      have hk : k' ≠ k := by
        intro hkk
        exact hnd.1 (hkk ▸ List.mem_map.mpr ⟨(k, v), h, rfl⟩)
      simp only [lookupModel, if_neg hk]
      exact ih hnd.2 h

theorem mnts_map_fst (data : List (String × MultiFunctionModelTaskLog)) :
    (data.filterMap fun p =>
        match p.2 with
        | [] => none
        | (_, run) :: _ => some (p.1, run.endingTimestampMs)).map Prod.fst =
      (data.filter fun p => !p.2.isEmpty).map Prod.fst := by
  induction data with
  | nil => rfl
  | cons p rest ih =>
    rcases p with ⟨name, g⟩
    cases g with
    | nil => simpa [List.filterMap_cons, List.filter_cons] using ih
    | cons q tail => simpa [List.filterMap_cons, List.filter_cons] using ih

theorem mem_mnts {s : SuiteLog} {x : String × ℤ}
    (hx : x ∈ modelNamesAndTimestamps s) :
    ∃ g, (x.1, g) ∈ s.data ∧ g ≠ [] ∧
      (g.head?.map fun q => q.2.endingTimestampMs) = some x.2 := by
  rcases List.mem_filterMap.mp hx with ⟨p, hp, hfp⟩
  rcases p with ⟨name, g⟩
  cases g with
  | nil => simp at hfp
  | cons q tail =>
    simp only [Option.some.injEq] at hfp
    refine ⟨q :: tail, ?_, by simp, ?_⟩
    · rw [← hfp]; exact hp
    · rw [← hfp]; rfl

theorem firstTs_of_mem_mnts {s : SuiteLog}
    (hnd : (s.data.map Prod.fst).Nodup) {x : String × ℤ}
    (hx : x ∈ modelNamesAndTimestamps s) :
    firstFunctionEndingTs s x.1 = some x.2 := by
  rcases mem_mnts hx with ⟨g, hmem, hne, hhead⟩
  unfold firstFunctionEndingTs
  rw [lookupModel_eq_some hnd hmem]
  simpa using hhead

theorem chrono_mem_nonempty {s : SuiteLog}
    (hnd : (s.data.map Prod.fst).Nodup) {mn : String}
    (hmn : mn ∈ getChronologicalModelNames s) :
    ((lookupModel s.data mn).getD []).length ≠ 0 := by
  unfold getChronologicalModelNames at hmn
  rcases List.mem_map.mp hmn with ⟨x, hx, hfst⟩
  have hx' : x ∈ modelNamesAndTimestamps s :=
    (List.perm_insertionSort _ _).mem_iff.mp hx
  rcases mem_mnts hx' with ⟨g, hmem, hne, _⟩
  rw [← hfst, lookupModel_eq_some hnd hmem]
  simp only [Option.getD_some]
  intro h0
  exact hne (List.eq_nil_of_length_eq_zero h0)

end Benchmarks

namespace Benchmarks

/-! Lemmas about the per-pair execution, the function loop, and the model
loop. -/

theorem warmUpPredictLoop_ok {env : PipelineEnv} {mn : String}
    (hw : ∀ n, env.warmUpPredictFails mn n = false) :
    ∀ count start, warmUpPredictLoop env mn start count =
      ((List.range' start count).map (Event.warmUpPredict mn), .ok ()) := by
  intro count
  induction count with
  | zero => intro start; rfl
  | succ c ih =>
    intro start
    simp [warmUpPredictLoop, hw start, List.range'_succ, ih (start + 1)]

theorem timedPredictLoop_ok {env : PipelineEnv} {mn : String}
    (ht : ∀ n, env.timedPredictFails mn n = false) :
    ∀ count start, timedPredictLoop env mn start count =
      ((List.range' start count).map (Event.timedPredict mn),
        .ok ((List.range' start count).map (env.predictDur mn))) := by
  intro count
  induction count with
  | zero => intro start; rfl
  | succ c ih =>
    intro start
    simp [timedPredictLoop, ht start, List.range'_succ, ih (start + 1)]

theorem warmUpPredictLoop_events {env : PipelineEnv} {mn : String} :
    ∀ count start, ∀ e ∈ (warmUpPredictLoop env mn start count).1,
      ∃ n, e = Event.warmUpPredict mn n := by
  intro count
  induction count with
  | zero => intro start e he; cases he
  | succ c ih =>
    intro start e he
    by_cases hf : env.warmUpPredictFails mn start
    · simp [warmUpPredictLoop, hf] at he
      exact ⟨start, he⟩
    · simp only [warmUpPredictLoop, hf, Bool.false_eq_true, if_false,
        List.mem_cons] at he
      rcases he with h | h
      · exact ⟨start, h⟩
      · exact ih (start + 1) e h

theorem timedPredictLoop_events {env : PipelineEnv} {mn : String} :
    ∀ count start, ∀ e ∈ (timedPredictLoop env mn start count).1,
      ∃ n, e = Event.timedPredict mn n := by
  intro count
  induction count with
  | zero => intro start e he; cases he
  | succ c ih =>
    intro start e he
    by_cases hf : env.timedPredictFails mn start
    · simp [timedPredictLoop, hf] at he
      exact ⟨start, he⟩
    · simp only [timedPredictLoop, hf, Bool.false_eq_true, if_false] at he
      rcases hr : timedPredictLoop env mn (start + 1) c with ⟨tr, r⟩
      rw [hr] at he
      cases r with
      | ok ts =>
        simp only [List.mem_cons] at he
        rcases he with h | h
        · exact ⟨start, h⟩
        · exact ih (start + 1) e (by rw [hr]; exact h)
      | error e' =>
        simp only [List.mem_cons] at he
        rcases he with h | h
        · exact ⟨start, h⟩
        · exact ih (start + 1) e (by rw [hr]; exact h)

theorem warmUpPredictLoop_error {env : PipelineEnv} {mn : String} :
    ∀ count start {e}, (warmUpPredictLoop env mn start count).2 = .error e →
      ∃ n, e = BenchError.modelCallError mn "predict" n := by
  intro count
  induction count with
  | zero => intro start e h; cases h
  | succ c ih =>
    intro start e h
    by_cases hf : env.warmUpPredictFails mn start
    · simp [warmUpPredictLoop, hf] at h
      exact ⟨start, h.symm⟩
    · simp only [warmUpPredictLoop, hf, Bool.false_eq_true, if_false] at h
      exact ih (start + 1) h

theorem timedPredictLoop_error {env : PipelineEnv} {mn : String} :
    ∀ count start {e}, (timedPredictLoop env mn start count).2 = .error e →
      ∃ n, e = BenchError.modelCallError mn "predict" n := by
  intro count
  induction count with
  | zero => intro start e h; cases h
  | succ c ih =>
    intro start e h
    by_cases hf : env.timedPredictFails mn start
    · simp [timedPredictLoop, hf] at h
      exact ⟨start, h.symm⟩
    · simp only [timedPredictLoop, hf, Bool.false_eq_true, if_false] at h
      rcases hr : timedPredictLoop env mn (start + 1) c with ⟨tr, r⟩
      rw [hr] at h
      cases r with
      | ok ts => cases h
      | error e' =>
        cases h
        exact ih (start + 1) (by rw [hr])

theorem processPair_ok_py {env : PipelineEnv} {mn fn : String}
    {py : ModelBenchmarkRun} {t : Option ModelBenchmarkRun}
    {p : ModelBenchmarkRun}
    (h : (processPair env mn fn py).2 = .ok (t, p)) :
    p = updatedPyRun env mn fn py := by
  unfold processPair at h
  by_cases hb : isValidBatchSize py.batchSize
  · rw [if_neg (not_not_intro hb)] at h
    by_cases hp : fn = "predict"
    · rw [if_pos hp] at h
      subst hp
      rcases hw : warmUpPredictLoop env mn 0 py.numWarmUpIterations with ⟨trW, rW⟩
      rw [hw] at h
      cases rW with
      | error e => simp at h
      | ok u =>
        cases u
        rcases htl : timedPredictLoop env mn 0 py.numBenchmarkedIterations with ⟨trT, rT⟩
        rw [htl] at h
        cases rT with
        | error e => simp at h
        | ok ts =>
          simp only [Except.ok.injEq, Prod.mk.injEq] at h
          exact h.2.symm
    · by_cases hf : fn = "fit"
      · rw [if_neg hp, if_pos hf] at h
        subst hf
        by_cases hwf : env.warmUpFitFails mn
        · rw [if_pos hwf] at h; simp at h
        · rw [if_neg hwf] at h
          by_cases htf : env.timedFitFails mn
          · rw [if_pos htf] at h; simp at h
          · rw [if_neg htf] at h
            simp only [Except.ok.injEq, Prod.mk.injEq] at h
            exact h.2.symm
      · rw [if_neg hp, if_neg hf] at h
        simp only [Except.ok.injEq, Prod.mk.injEq] at h
        exact h.2.symm
  · rw [if_pos hb] at h
    simp at h

theorem processPair_trace_head (env : PipelineEnv) (mn fn : String)
    (py : ModelBenchmarkRun) :
    (processPair env mn fn py).1.head? =
      some (.taskIdRequest "model" mn fn) := by
  unfold processPair
  by_cases hb : isValidBatchSize py.batchSize
  · rw [if_neg (not_not_intro hb)]
    by_cases hp : fn = "predict"
    · rw [if_pos hp]
      rcases hw : warmUpPredictLoop env mn 0 py.numWarmUpIterations with ⟨trW, rW⟩
      cases rW with
      | error e => simp [hp]
      | ok u =>
        cases u
        rcases htl : timedPredictLoop env mn 0 py.numBenchmarkedIterations with ⟨trT, rT⟩
        cases rT with
        | error e => simp [hp]
        | ok ts => simp [hp]
  -- remaining branches
    · by_cases hf : fn = "fit"
      · rw [if_neg hp, if_pos hf]
        by_cases hwf : env.warmUpFitFails mn
        · rw [if_pos hwf]; simp [hf]
        · rw [if_neg hwf]
          by_cases htf : env.timedFitFails mn
          · rw [if_pos htf]; simp [hf]
          · rw [if_neg htf]; simp [hf]
      · rw [if_neg hp, if_neg hf]; simp
  · rw [if_pos hb]; simp

theorem processPair_error_shape {env : PipelineEnv} {mn fn : String}
    {py : ModelBenchmarkRun} {e : BenchError}
    (h : (processPair env mn fn py).2 = .error e) :
    e = .invalidBatchSize py.batchSize ∨
      ∃ m f n, e = .modelCallError m f n := by
  unfold processPair at h
  by_cases hb : isValidBatchSize py.batchSize
  · rw [if_neg (not_not_intro hb)] at h
    by_cases hp : fn = "predict"
    · rw [if_pos hp] at h
      rcases hw : warmUpPredictLoop env mn 0 py.numWarmUpIterations with ⟨trW, rW⟩
      rw [hw] at h
      cases rW with
      | error e' =>
        simp only [Except.error.injEq] at h
        subst h
        rcases warmUpPredictLoop_error _ _ (by rw [hw]) with ⟨n, hn⟩
        exact Or.inr ⟨mn, "predict", n, hn⟩
      | ok u =>
        cases u
        rcases htl : timedPredictLoop env mn 0 py.numBenchmarkedIterations with ⟨trT, rT⟩
        rw [htl] at h
        cases rT with
        | error e' =>
          simp only [Except.error.injEq] at h
          subst h
          rcases timedPredictLoop_error _ _ (by rw [htl]) with ⟨n, hn⟩
          exact Or.inr ⟨mn, "predict", n, hn⟩
        | ok ts => simp at h
    · by_cases hf : fn = "fit"
      · rw [if_neg hp, if_pos hf] at h
        by_cases hwf : env.warmUpFitFails mn
        · rw [if_pos hwf] at h
          simp only [Except.error.injEq] at h
          exact Or.inr ⟨mn, "fit", 0, h.symm⟩
        · rw [if_neg hwf] at h
          by_cases htf : env.timedFitFails mn
          · rw [if_pos htf] at h
            simp only [Except.error.injEq] at h
            exact Or.inr ⟨mn, "fit", 1, h.symm⟩
          · rw [if_neg htf] at h; simp at h
      · rw [if_neg hp, if_neg hf] at h; simp at h
  · rw [if_pos hb] at h
    simp only [Except.error.injEq] at h
    exact Or.inl h.symm

theorem processPair_no_batchInsert (env : PipelineEnv) (mn fn : String)
    (py : ModelBenchmarkRun) :
    ∀ e ∈ (processPair env mn fn py).1, e.isBatchInsert = false := by
  intro e he
  unfold processPair at he
  by_cases hb : isValidBatchSize py.batchSize
  · rw [if_neg (not_not_intro hb)] at he
    by_cases hp : fn = "predict"
    · rw [if_pos hp] at he
      rcases hw : warmUpPredictLoop env mn 0 py.numWarmUpIterations with ⟨trW, rW⟩
      rw [hw] at he
      have hW : ∀ x ∈ trW, ∃ n, x = Event.warmUpPredict mn n := by
        intro x hx
        exact warmUpPredictLoop_events _ _ x (by rw [hw]; exact hx)
      cases rW with
      | error e' =>
        simp only [List.mem_append, List.mem_singleton, List.mem_cons,
          List.not_mem_nil, or_false] at he
        rcases he with (he | he) | he
        · subst he; rfl
        · subst he; rfl
        · rcases hW e he with ⟨n, hn⟩; subst hn; rfl
      | ok u =>
        cases u
        rcases htl : timedPredictLoop env mn 0 py.numBenchmarkedIterations with ⟨trT, rT⟩
        rw [htl] at he
        have hT : ∀ x ∈ trT, ∃ n, x = Event.timedPredict mn n := by
          intro x hx
          exact timedPredictLoop_events _ _ x (by rw [htl]; exact hx)
        cases rT with
        | error e' =>
          simp only [List.mem_append, List.mem_singleton, List.mem_cons,
            List.not_mem_nil, or_false] at he
          rcases he with ((he | he) | he) | he
          · subst he; rfl
          · subst he; rfl
          · rcases hW e he with ⟨n, hn⟩; subst hn; rfl
          · rcases hT e he with ⟨n, hn⟩; subst hn; rfl
        | ok ts =>
          simp only [List.mem_append, List.mem_singleton, List.mem_cons,
            List.not_mem_nil, or_false] at he
          rcases he with (((he | he) | he) | he) | he
          · subst he; rfl
          · subst he; rfl
          · rcases hW e he with ⟨n, hn⟩; subst hn; rfl
          · rcases hT e he with ⟨n, hn⟩; subst hn; rfl
          · subst he; rfl
    · by_cases hf : fn = "fit"
      · rw [if_neg hp, if_pos hf] at he
        by_cases hwf : env.warmUpFitFails mn
        · rw [if_pos hwf] at he
          simp only [List.mem_append, List.mem_singleton, List.mem_cons,
            List.not_mem_nil, or_false] at he
          rcases he with ((he | he) | he) | he <;> (subst he; rfl)
        · rw [if_neg hwf] at he
          by_cases htf : env.timedFitFails mn
          · rw [if_pos htf] at he
            simp only [List.mem_append, List.mem_singleton, List.mem_cons,
              List.not_mem_nil, or_false] at he
            rcases he with ((he | he) | he) | he | he <;> (subst he; rfl)
          · rw [if_neg htf] at he
            simp only [List.mem_append, List.mem_singleton, List.mem_cons,
              List.not_mem_nil, or_false] at he
            rcases he with ((he | he) | he) | he | he | he <;> (subst he; rfl)
      · rw [if_neg hp, if_neg hf] at he
        simp only [List.mem_append, List.mem_singleton, List.mem_cons,
          List.not_mem_nil, or_false] at he
        rcases he with (he | he) | he | he <;> (subst he; rfl)
  · rw [if_pos hb] at he
    simp only [List.mem_singleton] at he
    subst he; rfl

theorem processPair_alloc_balanced {env : PipelineEnv} {mn fn : String}
    {py : ModelBenchmarkRun}
    (h : ∀ m f n, (processPair env mn fn py).2 ≠
      .error (.modelCallError m f n)) :
    (processPair env mn fn py).1.countP Event.isAlloc =
      (processPair env mn fn py).1.countP Event.isDispose := by
  unfold processPair at h ⊢
  by_cases hb : isValidBatchSize py.batchSize
  · rw [if_neg (not_not_intro hb)] at h ⊢
    by_cases hp : fn = "predict"
    · rw [if_pos hp] at h ⊢
      rcases hw : warmUpPredictLoop env mn 0 py.numWarmUpIterations with ⟨trW, rW⟩
      have hW0 : trW.countP Event.isAlloc = 0 ∧ trW.countP Event.isDispose = 0 := by
        constructor <;>
          (rw [List.countP_eq_zero]
           intro x hx
           rcases warmUpPredictLoop_events _ _ x (by rw [hw]; exact hx) with ⟨n, hn⟩
           subst hn
           simp [Event.isAlloc, Event.isDispose])
      cases rW with
      | error e' =>
        exfalso
        rcases warmUpPredictLoop_error _ _ (by rw [hw]) with ⟨n, hn⟩
        exact h mn "predict" n (by rw [hw]; exact congrArg Except.error hn)
      | ok u =>
        cases u
        rcases htl : timedPredictLoop env mn 0 py.numBenchmarkedIterations with ⟨trT, rT⟩
        have hT0 : trT.countP Event.isAlloc = 0 ∧ trT.countP Event.isDispose = 0 := by
          constructor <;>
            (rw [List.countP_eq_zero]
             intro x hx
             rcases timedPredictLoop_events _ _ x (by rw [htl]; exact hx) with ⟨n, hn⟩
             subst hn
             simp [Event.isAlloc, Event.isDispose])
        cases rT with
        | error e' =>
          exfalso
          rcases timedPredictLoop_error _ _ (by rw [htl]) with ⟨n, hn⟩
          exact h mn "predict" n (by rw [hw, htl]; exact congrArg Except.error hn)
        | ok ts =>
          simp [List.countP_append, hW0.1, hW0.2, hT0.1, hT0.2,
            List.countP_cons, Event.isAlloc, Event.isDispose]
    · by_cases hf : fn = "fit"
      · rw [if_neg hp, if_pos hf] at h ⊢
        by_cases hwf : env.warmUpFitFails mn
        · exfalso
          rw [if_pos hwf] at h
          exact h mn "fit" 0 rfl
        · rw [if_neg hwf] at h ⊢
          by_cases htf : env.timedFitFails mn
          · exfalso
            rw [if_pos htf] at h
            exact h mn "fit" 1 rfl
          · rw [if_neg htf]
            simp [List.countP_append, List.countP_cons,
              Event.isAlloc, Event.isDispose]
      · rw [if_neg hp, if_neg hf]
        simp [List.countP_append, List.countP_cons,
          Event.isAlloc, Event.isDispose]
  · rw [if_pos hb]
    simp [List.countP_cons, Event.isAlloc, Event.isDispose]

theorem processPairs_cons_ok {env : PipelineEnv} {mn fn : String}
    {py : ModelBenchmarkRun} {t : Option ModelBenchmarkRun}
    {p : ModelBenchmarkRun} (rest : MultiFunctionModelTaskLog)
    (h : (processPair env mn fn py).2 = .ok (t, p)) :
    processPairs env mn ((fn, py) :: rest) =
      ((processPair env mn fn py).1 ++ (processPairs env mn rest).1,
        match (processPairs env mn rest).2 with
        | .error e => .error e
        | .ok (ts, ps) => .ok (t :: ts, p :: ps)) := by
  rcases hp : processPair env mn fn py with ⟨tr, r⟩
  have hr : r = .ok (t, p) := by rw [hp] at h; exact h
  subst hr
  rcases hrest : processPairs env mn rest with ⟨tr2, r2⟩
  cases r2 with
  | error e => simp [processPairs, hp, hrest]
  | ok v => rcases v with ⟨ts, ps⟩; simp [processPairs, hp, hrest]

theorem processPairs_ok_mem {env : PipelineEnv} {mn : String} :
    ∀ {pairs : MultiFunctionModelTaskLog}
      {ts : List (Option ModelBenchmarkRun)} {ps : List ModelBenchmarkRun},
      (processPairs env mn pairs).2 = .ok (ts, ps) →
      ∀ r ∈ ps, ∃ fn py, (fn, py) ∈ pairs ∧ r = updatedPyRun env mn fn py := by
  intro pairs
  induction pairs with
  | nil =>
    intro ts ps h r hr
    simp only [processPairs, Except.ok.injEq, Prod.mk.injEq] at h
    rw [← h.2] at hr
    cases hr
  | cons q rest ih =>
    intro ts ps h r hr
    rcases q with ⟨fn, py⟩
    unfold processPairs at h
    rcases hp : processPair env mn fn py with ⟨tr, r1⟩
    rw [hp] at h
    cases r1 with
    | error e => simp at h
    | ok v =>
      rcases v with ⟨t, p⟩
      rcases hrest : processPairs env mn rest with ⟨tr2, r2⟩
      rw [hrest] at h
      cases r2 with
      | error e => simp at h
      | ok v2 =>
        rcases v2 with ⟨ts2, ps2⟩
        simp only [Except.ok.injEq, Prod.mk.injEq] at h
        rw [← h.2] at hr
        rcases List.mem_cons.mp hr with hh | hh
        · refine ⟨fn, py, List.mem_cons_self _ _, ?_⟩
          rw [hh]
          exact processPair_ok_py (by rw [hp])
        · rcases ih (by rw [hrest]) r hh with ⟨fn', py', hmem, heq⟩
          exact ⟨fn', py', List.mem_cons_of_mem _ hmem, heq⟩

theorem processPairs_error_shape {env : PipelineEnv} {mn : String} :
    ∀ {pairs : MultiFunctionModelTaskLog} {e : BenchError},
      (processPairs env mn pairs).2 = .error e →
      (∃ b, e = .invalidBatchSize b) ∨ ∃ m f n, e = .modelCallError m f n := by
  intro pairs
  induction pairs with
  | nil => intro e h; simp [processPairs] at h
  | cons q rest ih =>
    intro e h
    rcases q with ⟨fn, py⟩
    unfold processPairs at h
    rcases hp : processPair env mn fn py with ⟨tr, r1⟩
    rw [hp] at h
    cases r1 with
    | error e' =>
      simp only [Except.error.injEq] at h
      rcases processPair_error_shape (e := e') (by rw [hp]) with hsh | hsh
      · exact Or.inl ⟨py.batchSize, by rw [← h, hsh]⟩
      · rcases hsh with ⟨m, f, n, hn⟩
        exact Or.inr ⟨m, f, n, by rw [← h, hn]⟩
    | ok v =>
      rcases v with ⟨t, p⟩
      rcases hrest : processPairs env mn rest with ⟨tr2, r2⟩
      rw [hrest] at h
      cases r2 with
      | error e' =>
        simp only [Except.error.injEq] at h
        rw [← h]
        exact ih (by rw [hrest])
      | ok v2 => rcases v2 with ⟨ts2, ps2⟩; simp at h

theorem processPairs_no_batchInsert (env : PipelineEnv) (mn : String) :
    ∀ (pairs : MultiFunctionModelTaskLog),
      ∀ e ∈ (processPairs env mn pairs).1, e.isBatchInsert = false := by
  intro pairs
  induction pairs with
  | nil => intro e he; cases he
  | cons q rest ih =>
    intro e he
    rcases q with ⟨fn, py⟩
    unfold processPairs at he
    rcases hp : processPair env mn fn py with ⟨tr, r1⟩
    rw [hp] at he
    have htr : ∀ x ∈ tr, Event.isBatchInsert x = false := by
      intro x hx
      exact processPair_no_batchInsert env mn fn py x (by rw [hp]; exact hx)
    cases r1 with
    | error e' => exact htr e he
    | ok v =>
      rcases v with ⟨t, p⟩
      rcases hrest : processPairs env mn rest with ⟨tr2, r2⟩
      rw [hrest] at he
      have hmem : e ∈ tr ++ tr2 := by
        cases r2 with
        | error e2 => exact he
        | ok v2 => rcases v2 with ⟨ts2, ps2⟩; exact he
      rcases List.mem_append.mp hmem with hh | hh
      · exact htr e hh
      · exact ih e (by rw [hrest]; exact hh)

theorem processModels_ok_mem {env : PipelineEnv} {s : SuiteLog} :
    ∀ {names : List String} {ts : List (Option ModelBenchmarkRun)}
      {ps : List ModelBenchmarkRun},
      (processModels env s names).2 = .ok (ts, ps) →
      ∀ r ∈ ps, ∃ mn fn py, r = updatedPyRun env mn fn py := by
  intro names
  induction names with
  | nil =>
    intro ts ps h r hr
    simp only [processModels, Except.ok.injEq, Prod.mk.injEq] at h
    rw [← h.2] at hr
    cases hr
  | cons mn rest ih =>
    intro ts ps h r hr
    unfold processModels at h
    by_cases hg : ((lookupModel s.data mn).getD []).length = 0
    · rw [if_pos hg] at h; simp at h
    · rw [if_neg hg] at h
      rcases hp : processPairs env mn ((lookupModel s.data mn).getD []) with ⟨tr, r1⟩
      rw [hp] at h
      cases r1 with
      | error e => simp at h
      | ok v =>
        rcases v with ⟨t1, p1⟩
        rcases hrest : processModels env s rest with ⟨tr2, r2⟩
        rw [hrest] at h
        cases r2 with
        | error e => simp at h
        | ok v2 =>
          rcases v2 with ⟨t2, p2⟩
          simp only [Except.ok.injEq, Prod.mk.injEq] at h
          rw [← h.2] at hr
          rcases List.mem_append.mp hr with hh | hh
          · rcases processPairs_ok_mem (by rw [hp]) r hh with ⟨fn, py, _, heq⟩
            exact ⟨mn, fn, py, heq⟩
          · exact ih (by rw [hrest]) r hh

theorem processModels_no_batchInsert (env : PipelineEnv) (s : SuiteLog) :
    ∀ (names : List String),
      ∀ e ∈ (processModels env s names).1, e.isBatchInsert = false := by
  intro names
  induction names with
  | nil => intro e he; cases he
  | cons mn rest ih =>
    intro e he
    unfold processModels at he
    by_cases hg : ((lookupModel s.data mn).getD []).length = 0
    · rw [if_pos hg] at he
      simp only [List.mem_singleton] at he
      subst he; rfl
    · rw [if_neg hg] at he
      rcases hp : processPairs env mn ((lookupModel s.data mn).getD []) with ⟨tr, r1⟩
      rw [hp] at he
      have htr : ∀ x ∈ tr, Event.isBatchInsert x = false := by
        intro x hx
        exact processPairs_no_batchInsert env mn _ x (by rw [hp]; exact hx)
      cases r1 with
      | error e' =>
        simp only [List.cons_append, List.nil_append, List.mem_cons] at he
        rcases he with hh | hh
        · subst hh; rfl
        · exact htr e hh
      | ok v =>
        rcases v with ⟨t1, p1⟩
        rcases hrest : processModels env s rest with ⟨tr2, r2⟩
        rw [hrest] at he
        have hmem : e ∈ Event.loadModel mn :: (tr ++ tr2) := by
          cases r2 with
          | error e2 => simpa using he
          | ok v2 => rcases v2 with ⟨ts2, ps2⟩; simpa using he
        rcases List.mem_cons.mp hmem with hh | hh
        · subst hh; rfl
        · rcases List.mem_append.mp hh with h1 | h1
          · exact htr e h1
          · exact ih e (by rw [hrest]; exact h1)

theorem processModels_no_missingTask {env : PipelineEnv} {s : SuiteLog} :
    ∀ {names : List String},
      (∀ mn ∈ names, ((lookupModel s.data mn).getD []).length ≠ 0) →
      ∀ x, (processModels env s names).2 ≠ .error (.missingTask x) := by
  intro names
  induction names with
  | nil => intro _ x h; simp [processModels] at h
  | cons mn rest ih =>
    intro hnames x h
    unfold processModels at h
    rw [if_neg (hnames mn (List.mem_cons_self _ _))] at h
    rcases hp : processPairs env mn ((lookupModel s.data mn).getD []) with ⟨tr, r1⟩
    rw [hp] at h
    cases r1 with
    | error e' =>
      simp only [Except.error.injEq] at h
      rcases processPairs_error_shape (e := e') (by rw [hp]) with ⟨b, hb⟩ | ⟨m, f, n, hn⟩
      · rw [hb] at h; cases h
      · rw [hn] at h; cases h
    | ok v =>
      rcases v with ⟨t1, p1⟩
      rcases hrest : processModels env s rest with ⟨tr2, r2⟩
      rw [hrest] at h
      cases r2 with
      | error e2 =>
        simp only [Except.error.injEq] at h
        apply ih (fun m hm => hnames m (List.mem_cons_of_mem _ hm)) x
        rw [hrest, h]
      | ok v2 => rcases v2 with ⟨ts2, ps2⟩; simp at h

theorem processPair_invalid_iff {env : PipelineEnv} {mn fn : String}
    {py : ModelBenchmarkRun} :
    (processPair env mn fn py).2 = .error (.invalidBatchSize py.batchSize) ↔
      ¬ isValidBatchSize py.batchSize := by
  constructor
  · intro h
    by_contra hb
    unfold processPair at h
    rw [if_neg (not_not_intro hb)] at h
    by_cases hp : fn = "predict"
    · rw [if_pos hp] at h
      rcases hw : warmUpPredictLoop env mn 0 py.numWarmUpIterations with ⟨trW, rW⟩
      rw [hw] at h
      cases rW with
      | error e' =>
        simp only [Except.error.injEq] at h
        rcases warmUpPredictLoop_error _ _ (by rw [hw]) with ⟨n, hn⟩
        rw [hn] at h
        cases h
      | ok u =>
        cases u
        rcases htl : timedPredictLoop env mn 0 py.numBenchmarkedIterations with ⟨trT, rT⟩
        rw [htl] at h
        cases rT with
        | error e' =>
          simp only [Except.error.injEq] at h
          rcases timedPredictLoop_error _ _ (by rw [htl]) with ⟨n, hn⟩
          rw [hn] at h
          cases h
        | ok ts => simp at h
    · by_cases hf : fn = "fit"
      · rw [if_neg hp, if_pos hf] at h
        by_cases hwf : env.warmUpFitFails mn
        · rw [if_pos hwf] at h; simp at h
        · rw [if_neg hwf] at h
          by_cases htf : env.timedFitFails mn
          · rw [if_pos htf] at h; simp at h
          · rw [if_neg htf] at h; simp at h
      · rw [if_neg hp, if_neg hf] at h; simp at h
  · intro hb
    unfold processPair
    rw [if_pos hb]

theorem processPair_invalid_trace {env : PipelineEnv} {mn fn : String}
    {py : ModelBenchmarkRun} (hb : ¬ isValidBatchSize py.batchSize) :
    (processPair env mn fn py).1 = [.taskIdRequest "model" mn fn] := by
  unfold processPair
  rw [if_pos hb]

end Benchmarks

namespace Benchmarks

/-! The claims. -/

/-- C1: for every suite log whose model names are unique (as JS object keys
are), the chronological ordering returns a permutation of the input model
names with the zero-function models skipped, sorted ascending by the ending
timestamp of each model's first recorded function. -/
theorem c1_chronological_names (s : SuiteLog)
    (hnd : (s.data.map Prod.fst).Nodup) :
    (getChronologicalModelNames s).Perm
      ((s.data.filter fun p => !p.2.isEmpty).map Prod.fst) ∧
    (getChronologicalModelNames s).Pairwise (fun m₁ m₂ =>
      ∀ t₁ t₂, firstFunctionEndingTs s m₁ = some t₁ →
        firstFunctionEndingTs s m₂ = some t₂ → t₁ ≤ t₂) := by
  constructor
  · unfold getChronologicalModelNames
    have hperm := List.Perm.map Prod.fst
      (List.perm_insertionSort (fun x y : String × ℤ => x.2 ≤ y.2)
        (modelNamesAndTimestamps s))
    exact hperm.trans (List.Perm.of_eq (mnts_map_fst s.data))
  · unfold getChronologicalModelNames
    rw [List.pairwise_map]
    haveI : IsTotal (String × ℤ) (fun x y => x.2 ≤ y.2) :=
      ⟨fun a b => le_total a.2 b.2⟩
    haveI : IsTrans (String × ℤ) (fun x y => x.2 ≤ y.2) :=
      ⟨fun a b c hab hbc => le_trans hab hbc⟩
    have hs := List.sorted_insertionSort (fun x y : String × ℤ => x.2 ≤ y.2)
      (modelNamesAndTimestamps s)
    refine List.Pairwise.imp_of_mem ?_ hs
    intro a b ha hb hle t₁ t₂ h1 h2
    have ha' := (List.perm_insertionSort
      (fun x y : String × ℤ => x.2 ≤ y.2) _).mem_iff.mp ha
    have hb' := (List.perm_insertionSort
      (fun x y : String × ℤ => x.2 ≤ y.2) _).mem_iff.mp hb
    rw [firstTs_of_mem_mnts hnd ha'] at h1
    rw [firstTs_of_mem_mnts hnd hb'] at h2
    cases h1; cases h2
    exact hle

/-- C1 witness: the ordering theorem applied to the concrete suite log with
models `a` (first function ending at 1000), `b` (ending at 500) and `c`
(no recorded functions). -/
theorem c1_chronological_names_witness :
    (getChronologicalModelNames suiteThree).Perm
      ((suiteThree.data.filter fun p => !p.2.isEmpty).map Prod.fst) ∧
    (getChronologicalModelNames suiteThree).Pairwise (fun m₁ m₂ =>
      ∀ t₁ t₂, firstFunctionEndingTs suiteThree m₁ = some t₁ →
        firstFunctionEndingTs suiteThree m₂ = some t₂ → t₁ ≤ t₂) :=
  c1_chronological_names suiteThree (by decide)

/-- C2 counterexample: on the suite log whose only model has zero recorded
functions, the pipeline does not fail at all — it completes with empty run
lists because the chronological ordering silently drops the model before
the zero-function guard of the model loop can fire — and the datastore is
contacted (environment-info, version-set and batched-insert writes). -/
theorem c2_counterexample :
    (benchmarkModels env0 suiteNoTask).2 = .ok ([], []) ∧
    (benchmarkModels env0 suiteNoTask).1.countP Event.isDatastore ≠ 0 :=
  ⟨by decide, by decide⟩

/-- C2 amended: for every environment and every suite log with unique model
names, the pipeline never fails with a missing-task error: a model entry
with zero recorded functions is skipped by `getChronologicalModelNames`,
so the `No task is found` guard in the model loop is unreachable. -/
theorem c2_no_missing_task_failure (env : PipelineEnv) (s : SuiteLog)
    (hnd : (s.data.map Prod.fst).Nodup) (mn : String) :
    (benchmarkModels env s).2 ≠ .error (.missingTask mn) := by
  intro h
  unfold benchmarkModels at h
  rcases hp : processModels env s (getChronologicalModelNames s) with ⟨tr, r⟩
  rw [hp] at h
  cases r with
  | error e =>
    simp only [Except.error.injEq] at h
    exact processModels_no_missingTask
      (fun m hm => chrono_mem_nonempty hnd hm) mn
      (by rw [hp]; exact congrArg Except.error h)
  | ok v =>
    rcases v with ⟨t, p⟩
    simp at h

/-- C2 amended witness: the amended theorem applied to the concrete
zero-function suite log. -/
theorem c2_no_missing_task_failure_witness :
    (benchmarkModels env0 suiteNoTask).2 ≠ .error (.missingTask "m") :=
  c2_no_missing_task_failure env0 suiteNoTask (by decide) "m"

end Benchmarks

namespace Benchmarks

/-- C3: for every environment and (model, function) pair, the per-pair
processing throws the batch-size validation error exactly when the
reference run's batch size is not a positive integer, and in that case the
trace contains no tensor-allocation event (the validation precedes
`getRandomInputsAndOutputs`). -/
theorem c3_batch_size_validation (env : PipelineEnv) (mn fn : String)
    (py : ModelBenchmarkRun) :
    ((processPair env mn fn py).2 = .error (.invalidBatchSize py.batchSize)
      ↔ ¬ (py.batchSize.den = 1 ∧ 0 < py.batchSize)) ∧
    (¬ (py.batchSize.den = 1 ∧ 0 < py.batchSize) →
      (processPair env mn fn py).1.countP Event.isAlloc = 0) := by
  constructor
  · exact processPair_invalid_iff
  · intro hb
    rw [processPair_invalid_trace hb]
    rfl

/-- C3 witness: the validation theorem applied to the run whose batch size
is −3: the pair fails with the validation error and allocates nothing. -/
theorem c3_batch_size_validation_witness :
    (processPair env0 "mnist" "predict" pyRunBadBatch).2 =
      .error (.invalidBatchSize pyRunBadBatch.batchSize) ∧
    (processPair env0 "mnist" "predict" pyRunBadBatch).1.countP
      Event.isAlloc = 0 :=
  ⟨(c3_batch_size_validation env0 "mnist" "predict" pyRunBadBatch).1.mpr
      (by decide),
    (c3_batch_size_validation env0 "mnist" "predict" pyRunBadBatch).2
      (by decide)⟩

/-- C4: for every environment in which the framework calls succeed and
every model with a valid batch size, the `predict` path performs exactly
`numWarmUpIterations` warm-up calls followed by exactly
`numBenchmarkedIterations` timed calls and then the tensor release, and
the resulting tfjs run record has `timesMs` of length exactly
`numBenchmarkedIterations` with `averageTimeMs` its arithmetic mean. -/
theorem c4_predict_iterations (env : PipelineEnv) (mn : String)
    (py : ModelBenchmarkRun) (hb : isValidBatchSize py.batchSize)
    (hw : ∀ n, env.warmUpPredictFails mn n = false)
    (ht : ∀ n, env.timedPredictFails mn n = false) :
    (processPair env mn "predict" py).1 =
      .taskIdRequest "model" mn "predict" ::
        .allocInputsOutputs mn "predict" py.batchSize ::
        ((List.range py.numWarmUpIterations).map (Event.warmUpPredict mn) ++
          (List.range py.numBenchmarkedIterations).map
            (Event.timedPredict mn) ++
          [.disposeInputsOutputs mn "predict"]) ∧
    (processPair env mn "predict" py).2 =
      .ok (some (tfjsPredictRun env mn py
          (predictTs env mn py.numBenchmarkedIterations)),
        updatedPyRun env mn "predict" py) ∧
    (tfjsPredictRun env mn py
        (predictTs env mn py.numBenchmarkedIterations)).timesMs =
      some (predictTs env mn py.numBenchmarkedIterations) ∧
    (predictTs env mn py.numBenchmarkedIterations).length =
      py.numBenchmarkedIterations ∧
    (tfjsPredictRun env mn py
        (predictTs env mn py.numBenchmarkedIterations)).averageTimeMs =
      mathMean (predictTs env mn py.numBenchmarkedIterations) := by
  have hW := warmUpPredictLoop_ok hw py.numWarmUpIterations 0
  have hT := timedPredictLoop_ok ht py.numBenchmarkedIterations 0
  refine ⟨?_, ?_, rfl, by simp [predictTs], rfl⟩
  · unfold processPair
    rw [if_neg (not_not_intro hb), if_pos rfl, hW, hT]
    simp [predictTs, List.range_eq_range']
  · unfold processPair
    rw [if_neg (not_not_intro hb), if_pos rfl, hW, hT]
    simp [predictTs, List.range_eq_range']

/-- C4 witness: the predict-path theorem applied to the concrete `mnist`
run (2 warm-ups, 5 benchmarked iterations) under the all-success
environment. -/
theorem c4_predict_iterations_witness :
    (processPair env0 "mnist" "predict" pyRun0).2 =
      .ok (some (tfjsPredictRun env0 "mnist" pyRun0
          (predictTs env0 "mnist" pyRun0.numBenchmarkedIterations)),
        updatedPyRun env0 "mnist" "predict" pyRun0) ∧
    (predictTs env0 "mnist" pyRun0.numBenchmarkedIterations).length =
      pyRun0.numBenchmarkedIterations :=
  ⟨(c4_predict_iterations env0 "mnist" pyRun0 (by decide)
      (fun n => rfl) (fun n => rfl)).2.1,
    (c4_predict_iterations env0 "mnist" pyRun0 (by decide)
      (fun n => rfl) (fun n => rfl)).2.2.2.1⟩

/-- C5: for every environment in which the framework calls succeed and
every model with a valid batch size, the `fit` path performs exactly one
(untimed) warm-up training call of `numWarmUpIterations` epochs and exactly
one timed training call of `numBenchmarkedIterations` epochs, and the
resulting tfjs run record's `averageTimeMs` is the elapsed time of that
single timed call divided by `numBenchmarkedIterations`. -/
theorem c5_fit_single_timed_call (env : PipelineEnv) (mn : String)
    (py : ModelBenchmarkRun) (hb : isValidBatchSize py.batchSize)
    (hwf : env.warmUpFitFails mn = false)
    (htf : env.timedFitFails mn = false) :
    (processPair env mn "fit" py).1 =
      [.taskIdRequest "model" mn "fit",
        .allocInputsOutputs mn "fit" py.batchSize,
        .compile mn ((py.loss.map lossMap).getD none)
          ((py.optimizer.map optimizerMap).getD none),
        .warmUpFit mn py.numWarmUpIterations,
        .timedFit mn py.numBenchmarkedIterations,
        .disposeInputsOutputs mn "fit"] ∧
    (processPair env mn "fit" py).1.countP Event.isWarmUpFit = 1 ∧
    (processPair env mn "fit" py).1.countP Event.isTimedFit = 1 ∧
    (processPair env mn "fit" py).2 =
      .ok (some (tfjsFitRun env mn py (env.fitTime mn)),
        updatedPyRun env mn "fit" py) ∧
    (tfjsFitRun env mn py (env.fitTime mn)).averageTimeMs =
      env.fitTime mn / (py.numBenchmarkedIterations : ℚ) := by
  have hnp : ("fit" : String) ≠ "predict" := by decide
  have hnotw : ¬ env.warmUpFitFails mn = true := by simp [hwf]
  have hnott : ¬ env.timedFitFails mn = true := by simp [htf]
  have htrace : (processPair env mn "fit" py).1 =
      [.taskIdRequest "model" mn "fit",
        .allocInputsOutputs mn "fit" py.batchSize,
        .compile mn ((py.loss.map lossMap).getD none)
          ((py.optimizer.map optimizerMap).getD none),
        .warmUpFit mn py.numWarmUpIterations,
        .timedFit mn py.numBenchmarkedIterations,
        .disposeInputsOutputs mn "fit"] := by
    unfold processPair
    rw [if_neg (not_not_intro hb), if_neg hnp, if_pos rfl,
      if_neg hnotw, if_neg hnott]
    rfl
  have hres : (processPair env mn "fit" py).2 =
      .ok (some (tfjsFitRun env mn py (env.fitTime mn)),
        updatedPyRun env mn "fit" py) := by
    unfold processPair
    rw [if_neg (not_not_intro hb), if_neg hnp, if_pos rfl,
      if_neg hnotw, if_neg hnott]
  exact ⟨htrace, by rw [htrace]; rfl, by rw [htrace]; rfl, hres, rfl⟩

/-- C5 witness: the fit-path theorem applied to the concrete `fit`
reference run under the all-success environment. -/
theorem c5_fit_single_timed_call_witness :
    (processPair env0 "mnist" "fit" pyRunFit).1.countP
        Event.isWarmUpFit = 1 ∧
    (processPair env0 "mnist" "fit" pyRunFit).1.countP
        Event.isTimedFit = 1 ∧
    (processPair env0 "mnist" "fit" pyRunFit).2 =
      .ok (some (tfjsFitRun env0 "mnist" pyRunFit (env0.fitTime "mnist")),
        updatedPyRun env0 "mnist" "fit" pyRunFit) :=
  ⟨(c5_fit_single_timed_call env0 "mnist" pyRunFit (by decide)
      rfl rfl).2.1,
    (c5_fit_single_timed_call env0 "mnist" pyRunFit (by decide)
      rfl rfl).2.2.1,
    (c5_fit_single_timed_call env0 "mnist" pyRunFit (by decide)
      rfl rfl).2.2.2.1⟩

end Benchmarks

namespace Benchmarks

/-- C6 counterexample: in the environment where the fourth benchmarked
`predict()` call throws, the pair's input/output tensors are allocated but
never released — there is no try/finally around the timed calls, so
`tf.dispose({xs, ys})` is skipped on the failure path. -/
theorem c6_counterexample :
    (processPair envPredictFails "mnist" "predict" pyRun0).1.countP
        Event.isAlloc = 1 ∧
    (processPair envPredictFails "mnist" "predict" pyRun0).1.countP
        Event.isDispose = 0 ∧
    (processPair envPredictFails "mnist" "predict" pyRun0).2 =
      .error (.modelCallError "mnist" "predict" 3) :=
  ⟨by decide, by decide, by decide⟩

/-- C6 amended: for every environment and (model, function) pair, the
tensor allocations and releases of the pair balance on every path on which
no model `predict()`/`fit()` call throws — including the success paths and
the batch-size validation failure path; only a throwing framework call
skips the end-of-pair release. -/
theorem c6_tensor_release_balanced (env : PipelineEnv) (mn fn : String)
    (py : ModelBenchmarkRun)
    (h : ∀ m f n, (processPair env mn fn py).2 ≠
      .error (.modelCallError m f n)) :
    (processPair env mn fn py).1.countP Event.isAlloc =
      (processPair env mn fn py).1.countP Event.isDispose :=
  processPair_alloc_balanced h

/-- C6 amended witness: the balance theorem applied to the all-success
environment on the concrete `predict` pair. -/
theorem c6_tensor_release_balanced_witness :
    (processPair env0 "mnist" "predict" pyRun0).1.countP Event.isAlloc =
      (processPair env0 "mnist" "predict" pyRun0).1.countP
        Event.isDispose :=
  c6_tensor_release_balanced env0 "mnist" "predict" pyRun0
    (fun _ _ _ h => Except.noConfusion
      ((rfl : (processPair env0 "mnist" "predict" pyRun0).2 =
          Except.ok (some tfjsRun0, pyRun0Persisted)).symm.trans h))

/-- C7 counterexample: on the concrete one-model suite log the pipeline
collects the measured tfjs run, but the single batched write at the end
persists only the carried-over reference run — the tfjs run (built for the
tfjs environment) is not in the persisted batch, whose only record carries
the Python environment id. -/
theorem c7_counterexample :
    (benchmarkModels env0 suite0).2 =
      .ok ([some tfjsRun0], [pyRun0Persisted]) ∧
    (benchmarkModels env0 suite0).1.getLast? =
      some (.batchInsertRuns [pyRun0Persisted]) ∧
    (benchmarkModels env0 suite0).1.countP Event.isBatchInsert = 1 ∧
    tfjsRun0.environmentId ≠ pyRun0Persisted.environmentId :=
  ⟨rfl, rfl, by decide, by decide⟩

/-- C7 amended: for every environment and suite log, when the pipeline
succeeds its trace ends with a single batched datastore write whose
payload is exactly the collected reference (`pyRuns`) records — performed
after every model has been processed, with no earlier batched write. -/
theorem c7_single_batched_persistence (env : PipelineEnv) (s : SuiteLog)
    (tfjsRuns : List (Option ModelBenchmarkRun))
    (pyRuns : List ModelBenchmarkRun)
    (h : (benchmarkModels env s).2 = .ok (tfjsRuns, pyRuns)) :
    ∃ pre, (benchmarkModels env s).1 = pre ++ [.batchInsertRuns pyRuns] ∧
      ∀ e ∈ pre, e.isBatchInsert = false := by
  unfold benchmarkModels at h ⊢
  rcases hp : processModels env s (getChronologicalModelNames s) with ⟨tr, r⟩
  cases r with
  | error e => rw [hp] at h; simp at h
  | ok v =>
    rcases v with ⟨t, p⟩
    rw [hp] at h
    simp only [Except.ok.injEq, Prod.mk.injEq] at h
    refine ⟨[.envInfoWrite "tfjs", .versionSetWrite, .fetchSuiteLog,
      .envInfoWrite "py"] ++ tr, by simp [h.2], ?_⟩
    intro e he
    rcases List.mem_append.mp he with hh | hh
    · simp only [List.mem_cons, List.not_mem_nil, or_false] at hh
      rcases hh with h1 | h1 | h1 | h1 <;> (subst h1; rfl)
    · exact processModels_no_batchInsert env s _ e (by rw [hp]; exact hh)

/-- C7 amended witness: the persistence theorem applied to the concrete
one-model suite log. -/
theorem c7_single_batched_persistence_witness :
    ∃ pre, (benchmarkModels env0 suite0).1 =
        pre ++ [.batchInsertRuns [pyRun0Persisted]] ∧
      ∀ e ∈ pre, e.isBatchInsert = false :=
  c7_single_batched_persistence env0 suite0 [some tfjsRun0]
    [pyRun0Persisted] rfl

end Benchmarks

namespace Benchmarks

/-- C8: for every environment and model with a valid batch size, a pair
whose function name is neither `predict` nor `fit` succeeds without any
model call: a warning is emitted, no error is raised (no tfjs run is
built), and the function loop proceeds to the next pair. -/
theorem c8_unknown_function_skipped (env : PipelineEnv) (mn fn : String)
    (py : ModelBenchmarkRun) (rest : MultiFunctionModelTaskLog)
    (hp : fn ≠ "predict") (hf : fn ≠ "fit")
    (hb : isValidBatchSize py.batchSize) :
    (processPair env mn fn py).2 = .ok (none, updatedPyRun env mn fn py) ∧
    Event.warn mn fn ∈ (processPair env mn fn py).1 ∧
    (processPairs env mn ((fn, py) :: rest)).1 =
      (processPair env mn fn py).1 ++ (processPairs env mn rest).1 := by
  have hres : (processPair env mn fn py).2 =
      .ok (none, updatedPyRun env mn fn py) := by
    unfold processPair
    rw [if_neg (not_not_intro hb), if_neg hp, if_neg hf]
  have htrace : (processPair env mn fn py).1 =
      [.taskIdRequest "model" mn fn, .allocInputsOutputs mn fn py.batchSize,
        .warn mn fn, .disposeInputsOutputs mn fn] := by
    unfold processPair
    rw [if_neg (not_not_intro hb), if_neg hp, if_neg hf]
    rfl
  refine ⟨hres, by rw [htrace]; simp, ?_⟩
  rw [processPairs_cons_ok rest hres]

/-- C8 witness: the skip theorem applied to the `fitDataset` pair of the
concrete `mnist` reference run. -/
theorem c8_unknown_function_skipped_witness :
    (processPair env0 "mnist" "fitDataset" pyRun0).2 =
      .ok (none, updatedPyRun env0 "mnist" "fitDataset" pyRun0) ∧
    Event.warn "mnist" "fitDataset" ∈
      (processPair env0 "mnist" "fitDataset" pyRun0).1 ∧
    (processPairs env0 "mnist" [("fitDataset", pyRun0)]).1 =
      (processPair env0 "mnist" "fitDataset" pyRun0).1 ++
        (processPairs env0 "mnist" []).1 :=
  c8_unknown_function_skipped env0 "mnist" "fitDataset" pyRun0 []
    (by decide) (by decide) (by decide)

/-- C9: whenever the pipeline succeeds, the batched write of the collected
reference runs appears in the trace, every persisted record carries the
Python environment id and a task id obtained from the datastore's
get-or-create call for a (model, `model`-task, function) triple, and for
every pair the very first per-pair action is the task-id request — before
validation, tensor allocation, or record building. -/
theorem c9_ids_before_persistence (env : PipelineEnv) (s : SuiteLog)
    (tfjsRuns : List (Option ModelBenchmarkRun))
    (pyRuns : List ModelBenchmarkRun)
    (h : (benchmarkModels env s).2 = .ok (tfjsRuns, pyRuns)) :
    Event.batchInsertRuns pyRuns ∈ (benchmarkModels env s).1 ∧
    (∀ r ∈ pyRuns, r.environmentId = some env.pyEnvironmentId ∧
      ∃ mn fn, r.taskId = some (env.taskIdFor "model" mn fn)) ∧
    ∀ mn fn py, (processPair env mn fn py).1.head? =
      some (.taskIdRequest "model" mn fn) := by
  refine ⟨?_, ?_, fun mn fn py => processPair_trace_head env mn fn py⟩
  · unfold benchmarkModels at h ⊢
    rcases hp : processModels env s (getChronologicalModelNames s)
      with ⟨tr, r⟩
    cases r with
    | error e => rw [hp] at h; simp at h
    | ok v =>
      rcases v with ⟨t, p⟩
      rw [hp] at h
      simp only [Except.ok.injEq, Prod.mk.injEq] at h
      rw [← h.2]
      simp
  · intro r hr
    unfold benchmarkModels at h
    rcases hp : processModels env s (getChronologicalModelNames s)
      with ⟨tr, r0⟩
    cases r0 with
    | error e => rw [hp] at h; simp at h
    | ok v =>
      rcases v with ⟨t, p⟩
      rw [hp] at h
      simp only [Except.ok.injEq, Prod.mk.injEq] at h
      rw [← h.2] at hr
      rcases processModels_ok_mem (by rw [hp]) r hr with ⟨mn, fn, py, heq⟩
      subst heq
      exact ⟨rfl, mn, fn, rfl⟩

/-- C9 witness: the identifier theorem applied to the concrete one-model
suite log under the all-success environment. -/
theorem c9_ids_before_persistence_witness :
    Event.batchInsertRuns [pyRun0Persisted] ∈
      (benchmarkModels env0 suite0).1 ∧
    (∀ r ∈ [pyRun0Persisted],
      r.environmentId = some env0.pyEnvironmentId ∧
      ∃ mn fn, r.taskId = some (env0.taskIdFor "model" mn fn)) ∧
    ∀ mn fn py, (processPair env0 mn fn py).1.head? =
      some (.taskIdRequest "model" mn fn) :=
  c9_ids_before_persistence env0 suite0 [some tfjsRun0]
    [pyRun0Persisted] rfl

/-- C10: whenever a pair succeeds — in particular for function names that
are neither `predict` nor `fit` — the reference run pushed onto `pyRuns`
is the input run updated with the pair's task id and the Python
environment id, the tfjs entry pushed alongside is `none` (left undefined)
for unrecognized function names, and the function loop conses both onto
the lists that the pipeline later hands to the batched datastore write. -/
theorem c10_reference_run_updated (env : PipelineEnv) (mn fn : String)
    (py : ModelBenchmarkRun) (t : Option ModelBenchmarkRun)
    (p : ModelBenchmarkRun) (rest : MultiFunctionModelTaskLog)
    (h : (processPair env mn fn py).2 = .ok (t, p)) :
    p = updatedPyRun env mn fn py ∧
    p.taskId = some (env.taskIdFor "model" mn fn) ∧
    p.environmentId = some env.pyEnvironmentId ∧
    (fn ≠ "predict" → fn ≠ "fit" → t = none) ∧
    (processPairs env mn ((fn, py) :: rest)).2 =
      (match (processPairs env mn rest).2 with
        | .error e => .error e
        | .ok (ts, ps) => .ok (t :: ts, p :: ps)) := by
  have hpy := processPair_ok_py h
  refine ⟨hpy, by rw [hpy]; rfl, by rw [hpy]; rfl, ?_, ?_⟩
  · intro hp hf
    by_cases hb : isValidBatchSize py.batchSize
    · unfold processPair at h
      rw [if_neg (not_not_intro hb), if_neg hp, if_neg hf] at h
      simp only [Except.ok.injEq, Prod.mk.injEq] at h
      exact h.1.symm
    · unfold processPair at h
      rw [if_pos hb] at h
      simp at h
  · exact congrArg Prod.snd (processPairs_cons_ok rest h)

/-- C10 witness: the theorem applied to the concrete `fitDataset`
(unrecognized) pair, whose tfjs entry is `none`. -/
theorem c10_reference_run_updated_witness :
    (updatedPyRun env0 "mnist" "fitDataset" pyRun0).taskId =
      some (env0.taskIdFor "model" "mnist" "fitDataset") ∧
    (updatedPyRun env0 "mnist" "fitDataset" pyRun0).environmentId =
      some env0.pyEnvironmentId ∧
    (processPairs env0 "mnist" [("fitDataset", pyRun0)]).2 =
      (match (processPairs env0 "mnist" []).2 with
        | .error e => .error e
        | .ok (ts, ps) =>
          .ok (none :: ts, updatedPyRun env0 "mnist" "fitDataset" pyRun0 :: ps)) :=
  ⟨(c10_reference_run_updated env0 "mnist" "fitDataset" pyRun0 none
      (updatedPyRun env0 "mnist" "fitDataset" pyRun0) [] rfl).2.1,
    (c10_reference_run_updated env0 "mnist" "fitDataset" pyRun0 none
      (updatedPyRun env0 "mnist" "fitDataset" pyRun0) [] rfl).2.2.1,
    (c10_reference_run_updated env0 "mnist" "fitDataset" pyRun0 none
      (updatedPyRun env0 "mnist" "fitDataset" pyRun0) [] rfl).2.2.2.2⟩

end Benchmarks
